import Mathlib

/-!
Shallow embedding of the object-lifecycle and enrichment-dispatch engine of
`src/PC.py` (class `SmartVisionSystem`), and proofs of the spec's claims
about it.  Timestamps (Python `time.time()` floats) are modelled as `ℚ`;
the registry dict `self.object_database` as an association list in
insertion order; the recognition backend as an oracle list of outcomes.
-/

namespace PC

/-- Configuration constant STABILITY_FRAMES (PC.py line 22). -/
def STABILITY_FRAMES : Nat := 20

/-- Configuration constant MAX_RPM (PC.py line 23). -/
def MAX_RPM : Nat := 5

/-- Configuration constant MAX_MISSING_FRAMES (PC.py line 24). -/
def MAX_MISSING_FRAMES : Nat := 30

/-- Helper for the Python substring operator: list-of-chars prefix test. -/
def hasPrefixChars : List Char → List Char → Bool
  | [], _ => true
  | _ :: _, [] => false
  | a :: as, b :: bs => a = b && hasPrefixChars as bs

/-- Helper for the Python substring operator: list-of-chars infix test. -/
def hasSubChars : List Char → List Char → Bool
  | sub, [] => hasPrefixChars sub []
  | sub, b :: bs => hasPrefixChars sub (b :: bs) || hasSubChars sub bs

/-- Python `sub in s` on strings: substring containment. -/
def strContains (s sub : String) : Bool := hasSubChars sub.data s.data

/-- Method check_api_quota (PC.py 264-269): drop every recorded timestamp `t`
with `now - t >= 60` from `api_history`, then report whether the remaining
count is strictly below MAX_RPM.  The method mutates `self.api_history`, so
the pruned history is returned alongside the boolean. -/
def check_api_quota (now : ℚ) (hist : List ℚ) : List ℚ × Bool :=
  let pruned := hist.filter (fun t => decide (now - t < 60))
  (pruned, decide (pruned.length < MAX_RPM))

/-- The status field of a registry record: "pending", "sending" or "done". -/
inductive Status
  | pending
  | sending
  | done
deriving DecidableEq

/-- Numeric rank of a status along the forward order pending → sending → done. -/
def Status.rank : Status → Nat
  | .pending => 0
  | .sending => 1
  | .done => 2

/-- One entry of `self.object_database` (PC.py 302-308). -/
structure Obj where
  yolo_name : String
  gemini_name : String
  status : Status
  frame_count : Nat
  missing_count : Nat
deriving DecidableEq

/-- The record created on first detection of a track id (PC.py 301-308). -/
def initObj (yoloName : String) : Obj :=
  { yolo_name := yoloName, gemini_name := "", status := .pending,
    frame_count := 0, missing_count := 0 }

/-- C3: check_api_quota first discards every timestamp outside the trailing
60-second window, then returns true iff the remaining count is strictly below
MAX_RPM; it never reports availability when MAX_RPM or more calls lie within
the window, and a timestamp older than 60 seconds never counts. -/
theorem check_api_quota_spec (now : ℚ) (hist : List ℚ) :
    (check_api_quota now hist).1 = hist.filter (fun t => decide (now - t < 60)) ∧
    ((check_api_quota now hist).2 = true ↔
      (hist.filter (fun t => decide (now - t < 60))).length < MAX_RPM) ∧
    (∀ t ∈ hist, 60 < now - t → t ∉ (check_api_quota now hist).1) ∧
    (MAX_RPM ≤ (hist.filter (fun t => decide (now - t < 60))).length →
      (check_api_quota now hist).2 = false) := by
  refine ⟨rfl, by simp [check_api_quota], ?_, ?_⟩
  · intro t _ hold hmem
    have := List.of_mem_filter (p := fun t => decide (now - t < 60)) hmem
    simp at this
    linarith
  · intro hge
    simp [check_api_quota]
    omega

/-- A task put on `self.task_queue` (PC.py 326): the track id, the crop
rectangle of the frame (already clipped to the frame bounds, PC.py 324-325)
and the coarse YOLO label. -/
structure EnrichmentTask where
  tid : Nat
  cx1 : Int
  cy1 : Int
  cx2 : Int
  cy2 : Int
  yoloName : String
deriving DecidableEq

/-- Result of handling one detected object in a frame. -/
structure DetectResult where
  obj : Obj
  hist : List ℚ
  task : Option EnrichmentTask
deriving DecidableEq

/-- Handling of one detected object in process_frame (PC.py 295-329):
presence bookkeeping (301-311) — create the record if absent, zero
`missing_count`, increment `frame_count` — followed by the dispatch gate
(313-329): if the status is pending and the incremented frame count exceeds
STABILITY_FRAMES, run check_api_quota (which prunes the history); with
capacity and a box strictly larger than 80×80, reserve a quota slot by
appending the current time, set the status to sending with the placeholder
label, and enqueue an EnrichmentTask with the clipped crop.  `entry` is the
registry entry for `tid` before this frame; `h`/`w` are the frame bounds. -/
def handleDetected (entry : Option Obj) (tid : Nat) (yoloName : String)
    (x1 y1 x2 y2 h w : Int) (now : ℚ) (hist : List ℚ) : DetectResult :=
  let o0 := match entry with
    | none => initObj yoloName
    | some o => o
  let o1 := { o0 with missing_count := 0, frame_count := o0.frame_count + 1 }
  if o1.status = .pending ∧ o1.frame_count > STABILITY_FRAMES then
    let q := check_api_quota now hist
    if q.2 then
      if x2 - x1 > 80 ∧ y2 - y1 > 80 then
        { obj := { o1 with status := .sending, gemini_name := "Thinking..." },
          hist := q.1 ++ [now],
          task := some { tid := tid, cx1 := max 0 x1, cy1 := max 0 y1,
                         cx2 := min w x2, cy2 := min h y2, yoloName := yoloName } }
      else { obj := o1, hist := q.1, task := none }
    else { obj := o1, hist := q.1, task := none }
  else { obj := o1, hist := hist, task := none }

/-- Externally observable actions of the system: socket payloads and the
worker's sleeps, calls and model switches.  On `apiCall`, `quotaOk` is ghost
instrumentation: the value check_api_quota would report at the instant the
backend call is issued (the code does not evaluate it there). -/
inductive Event
  | detected (name : String)
  | removed (name : String)
  | quotaSleep
  | rateSleep
  | apiCall (modelIdx : Nat) (quotaOk : Bool)
  | switched (modelIdx : Nat)
deriving DecidableEq

/-- Handling of one previously tracked id absent from the current frame
(PC.py 353-371): increment `missing_count`; once it exceeds
MAX_MISSING_FRAMES, emit the REMOVE payload when connected and the stored
label is nonempty and contains neither "Thinking" nor "失敗", then delete
the record unconditionally (`none`). -/
def missingUpdate (conn : Bool) (o : Obj) : Option Obj × List Event :=
  let o' := { o with missing_count := o.missing_count + 1 }
  if o'.missing_count > MAX_MISSING_FRAMES then
    (none,
      if conn = true ∧ o'.gemini_name ≠ "" ∧
          strContains o'.gemini_name "Thinking" = false ∧
          strContains o'.gemini_name "失敗" = false then
        [Event.removed o'.gemini_name]
      else [])
  else (some o', [])

/-- The registry `self.object_database`, as an association list in Python
dict insertion order. -/
abbrev DB := List (Nat × Obj)

/-- Dict lookup `db[k]` / `k in db`. -/
def dbFind : DB → Nat → Option Obj
  | [], _ => none
  | p :: rest, k => if p.1 = k then some p.2 else dbFind rest k

/-- Dict assignment `db[k] = v`: replace in place, or append a new key. -/
def dbSet : DB → Nat → Obj → DB
  | [], k, v => [(k, v)]
  | p :: rest, k, v => if p.1 = k then (k, v) :: rest else p :: dbSet rest k v

/-- Method on_resync_request (PC.py 146-160): scan the registry in order and
republish a `detect_item` payload for every object whose status is done and
whose stored label is nonempty and does not contain "失敗". -/
def on_resync_request (db : DB) : List Event :=
  db.foldr
    (fun p acc =>
      if p.2.status = .done ∧ p.2.gemini_name ≠ "" ∧
          strContains p.2.gemini_name "失敗" = false then
        Event.detected p.2.gemini_name :: acc
      else acc)
    []

/-- One backend response (the generate_content call at PC.py 219): a label,
or an exception whose message may contain "429". -/
inductive ApiOutcome
  | ok (label : String)
  | err (msg : String)
deriving DecidableEq

/-- Method switch_next_model (PC.py 180-184): advance the current model
index circularly over `valid_models`. -/
def switch_next_model (numModels idx : Nat) : Nat := (idx + 1) % numModels

/-- The local state of one execution of the worker's retry loop
(PC.py 208-236), together with the wall clock and the shared api_history. -/
structure LoopState where
  modelIdx : Nat
  attempts : Nat
  productName : String
  now : ℚ
  hist : List ℚ
deriving DecidableEq

/-- Pure view of check_api_quota's boolean at a given instant (ghost
instrumentation only; no pruning side effect). -/
def quotaOkAt (now : ℚ) (hist : List ℚ) : Bool :=
  decide ((hist.filter (fun t => decide (now - t < 60))).length < MAX_RPM)

/-- One iteration of the worker's retry loop (PC.py 212-236): the quota
pre-check (215-217, pruning the history; on no capacity, sleep 5 s and then
proceed), the backend call (219), and the outcome: on success record the
call timestamp and stop (220-223); on an exception increment `attempts`
(226); a message containing "429" sleeps 5 s, switches the model and
continues (229-232); anything else records the terminal label "API錯誤" and
stops (233-236).  Returns the new state, the iteration's events, and
whether the loop continues. -/
def retryIter (numModels : Nat) (st : LoopState) (res : ApiOutcome) :
    LoopState × List Event × Bool :=
  let q := check_api_quota st.now st.hist
  let now1 := if q.2 then st.now else st.now + 5
  let evs0 : List Event := if q.2 then [] else [Event.quotaSleep]
  let evs1 := evs0 ++ [Event.apiCall st.modelIdx (quotaOkAt now1 q.1)]
  match res with
  | .ok label =>
      ({ st with productName := label, now := now1, hist := q.1 ++ [now1] },
       evs1, false)
  | .err msg =>
      if strContains msg "429" then
        ({ st with attempts := st.attempts + 1, now := now1 + 5, hist := q.1,
                   modelIdx := switch_next_model numModels st.modelIdx },
         evs1 ++ [Event.rateSleep,
                  Event.switched (switch_next_model numModels st.modelIdx)],
         true)
      else
        ({ st with attempts := st.attempts + 1, productName := "API錯誤",
                   now := now1, hist := q.1 },
         evs1, false)

/-- The worker's retry loop `while attempts < max_retries` (PC.py 212-236).
The fuel is `max_retries - attempts`; each continuing iteration increments
`attempts` by one, so the fuel decreases by one.  `oracle` supplies the
backend's response to each call made. -/
def retryLoop (numModels : Nat) : Nat → LoopState → List ApiOutcome →
    LoopState × List Event
  | 0, st, _ => (st, [])
  | _ + 1, st, [] => (st, [])
  | fuel + 1, st, res :: rest =>
      let r := retryIter numModels st res
      if r.2.2 then
        let r' := retryLoop numModels fuel r.1 rest
        (r'.1, r.2.1 ++ r'.2)
      else (r.1, r.2.1)

/-- The per-object effect of the worker's write-back (PC.py 240-241). -/
def workerApply (name : String) (o : Obj) : Obj :=
  { o with gemini_name := name, status := .done }

/-- The worker's write-back under the lock (PC.py 238-241): store the result
and mark the object done only if the id is still present. -/
def workerWriteback (db : DB) (tid : Nat) (name : String) : DB :=
  match dbFind db tid with
  | none => db
  | some o => dbSet db tid (workerApply name o)

/-- The worker's publish decision (PC.py 245-252): emit a `detect_item`
payload iff connected and the result is nonempty and contains neither
"失敗" nor "錯誤". -/
def publishEvents (conn : Bool) (name : String) : List Event :=
  if conn = true ∧ name ≠ "" ∧ strContains name "失敗" = false ∧
      strContains name "錯誤" = false then
    [Event.detected name]
  else []

/-- One dequeued task in gemini_worker (PC.py 189-257).  `dbAtDequeue` is
the registry when the presence pre-check (192-194) runs; `dbAtWriteback`
the registry when the write-back lock (238-241) is taken (the frame thread
may have evicted or added objects in between).  If the id is absent at
dequeue the task is skipped with no effect; otherwise the retry loop runs
with `max_retries = len(valid_models) = numModels` and `attempts = 0`
(PC.py 208-210), the result is written back if the id is still present, and
the publish decision runs on the result.  Returns the registry after the
write-back, the emitted events, and the final loop state. -/
def gemini_worker_step (dbAtDequeue dbAtWriteback : DB) (conn : Bool)
    (numModels modelIdx : Nat) (task : EnrichmentTask) (now : ℚ)
    (hist : List ℚ) (oracle : List ApiOutcome) : DB × List Event × LoopState :=
  let st0 : LoopState := { modelIdx := modelIdx, attempts := 0,
                           productName := "辨識失敗", now := now, hist := hist }
  if (dbFind dbAtDequeue task.tid).isNone then
    (dbAtWriteback, [], st0)
  else
    let r := retryLoop numModels numModels st0 oracle
    (workerWriteback dbAtWriteback task.tid r.1.productName,
     r.2 ++ publishEvents conn r.1.productName, r.1)

/-- One entry of the frame's detection list: track id, box corners, coarse
YOLO class name (PC.py 289-298). -/
structure Detection where
  tid : Nat
  x1 : Int
  y1 : Int
  x2 : Int
  y2 : Int
  yoloName : String
deriving DecidableEq

/-- Pass 1 of process_frame (PC.py 295-329): handle each detection in list
order, threading the registry and the api history, and collecting the
enqueued tasks in order. -/
def processDetections (h w : Int) (now : ℚ) :
    List Detection → DB → List ℚ → DB × List ℚ × List EnrichmentTask
  | [], db, hist => (db, hist, [])
  | d :: rest, db, hist =>
      let r := handleDetected (dbFind db d.tid) d.tid d.yoloName
                 d.x1 d.y1 d.x2 d.y2 h w now hist
      let out := processDetections h w now rest (dbSet db d.tid r.obj) r.hist
      (out.1, out.2.1, r.task.toList ++ out.2.2)

/-- Pass 2 of process_frame (PC.py 351-371): scan the registry ids in
insertion order; an id among the frame's detections is left alone, any
other id goes through missingUpdate (increment, possible REMOVE payload,
possible deletion). -/
def missingPass (conn : Bool) (detIds : List Nat) : DB → DB × List Event
  | [] => ([], [])
  | p :: rest =>
      let out := missingPass conn detIds rest
      if p.1 ∈ detIds then (p :: out.1, out.2)
      else
        let m := missingUpdate conn p.2
        match m.1 with
        | some o' => ((p.1, o') :: out.1, m.2 ++ out.2)
        | none => (out.1, m.2 ++ out.2)

/-- Method process_frame (PC.py 285-373) restricted to the registry state
machine: the detection pass, then the missing/eviction pass over the ids
absent from the frame.  Returns the registry, the api history, the enqueued
tasks and the emitted events. -/
def process_frame_model (db : DB) (dets : List Detection) (h w : Int)
    (now : ℚ) (hist : List ℚ) (conn : Bool) :
    DB × List ℚ × List EnrichmentTask × List Event :=
  let r := processDetections h w now dets db hist
  let m := missingPass conn (dets.map Detection.tid) r.1
  (m.1, r.2.1, r.2.2, m.2)

/-- One step of the system as it affects a single registry entry that stays
live across the step: a detected-frame update of that id (handleDetected),
a missing-frame update that keeps the object (missingUpdate), or the
worker's write-back of a result (workerApply).  These are the only code
paths of PC.py that mutate an existing registry record. -/
def LiveStep (o o' : Obj) : Prop :=
  (∃ tid yn x1 y1 x2 y2 h w now hist,
      (handleDetected (some o) tid yn x1 y1 x2 y2 h w now hist).obj = o') ∨
  (∃ conn, (missingUpdate conn o).1 = some o') ∨
  (∃ name, workerApply name o = o')

/-- Does the pair of consecutive states enter the sending status? -/
def entersSending (a b : Obj) : Bool :=
  decide (a.status ≠ .sending) && decide (b.status = .sending)

/-- How many times a trace of states enters the sending status. -/
def countEnter (l : List Obj) : Nat :=
  (l.zip l.tail).countP (fun p => entersSending p.1 p.2)

/-- C2: a detected object already in the registry transitions from pending
to sending, has an enrichment task enqueued, and a quota slot reserved by
appending the current timestamp, exactly when at that instant its status is
pending, its (just incremented) frame count exceeds STABILITY_FRAMES,
check_api_quota reports capacity, and the box is strictly wider and taller
than 80; if any clause fails, no task is enqueued, no timestamp appended,
and the status is unchanged (a pending object stays pending). -/
theorem dispatch_gate_iff (o : Obj) (tid : Nat) (yn : String)
    (x1 y1 x2 y2 h w : Int) (now : ℚ) (hist : List ℚ) :
    ((handleDetected (some o) tid yn x1 y1 x2 y2 h w now hist).task.isSome = true ↔
      (o.status = .pending ∧ o.frame_count + 1 > STABILITY_FRAMES ∧
        (check_api_quota now hist).2 = true ∧ x2 - x1 > 80 ∧ y2 - y1 > 80)) ∧
    ((handleDetected (some o) tid yn x1 y1 x2 y2 h w now hist).task.isSome = true →
      (handleDetected (some o) tid yn x1 y1 x2 y2 h w now hist).obj.status = .sending ∧
      (handleDetected (some o) tid yn x1 y1 x2 y2 h w now hist).hist =
        (check_api_quota now hist).1 ++ [now] ∧
      (handleDetected (some o) tid yn x1 y1 x2 y2 h w now hist).task =
        some { tid := tid, cx1 := max 0 x1, cy1 := max 0 y1,
               cx2 := min w x2, cy2 := min h y2, yoloName := yn }) ∧
    ((handleDetected (some o) tid yn x1 y1 x2 y2 h w now hist).task.isSome = false →
      (handleDetected (some o) tid yn x1 y1 x2 y2 h w now hist).obj.status = o.status ∧
      ((handleDetected (some o) tid yn x1 y1 x2 y2 h w now hist).hist = hist ∨
        (handleDetected (some o) tid yn x1 y1 x2 y2 h w now hist).hist =
          (check_api_quota now hist).1)) := by
  by_cases h1 : o.status = Status.pending ∧ o.frame_count + 1 > STABILITY_FRAMES
  · by_cases h2 : (check_api_quota now hist).2 = true
    · by_cases h3 : x2 - x1 > 80 ∧ y2 - y1 > 80
      · simp [handleDetected, h1, h2, h3]
      · simp [handleDetected, h1, h2, h3]
    · simp only [Bool.not_eq_true] at h2
      simp [handleDetected, h1, h2]
  · simp [handleDetected, h1]
    tauto

/-- C5: in the worker's retry loop the model index advances exactly once,
circularly, per error message containing "429" (and the loop continues);
it does not advance on any other error (the loop stops) nor on success; the
circular advance steps to the next index and wraps from the last valid
model back to index 0. -/
theorem rotation_advance_iff (numModels : Nat) (st : LoopState) :
    (∀ msg, strContains msg "429" = true →
      (retryIter numModels st (.err msg)).1.modelIdx =
          switch_next_model numModels st.modelIdx ∧
        (retryIter numModels st (.err msg)).2.2 = true) ∧
    (∀ msg, strContains msg "429" = false →
      (retryIter numModels st (.err msg)).1.modelIdx = st.modelIdx ∧
        (retryIter numModels st (.err msg)).2.2 = false) ∧
    (∀ label, (retryIter numModels st (.ok label)).1.modelIdx = st.modelIdx ∧
      (retryIter numModels st (.ok label)).2.2 = false) ∧
    (∀ idx, idx + 1 = numModels → switch_next_model numModels idx = 0) ∧
    (∀ idx, idx + 1 < numModels → switch_next_model numModels idx = idx + 1) := by
  refine ⟨?_, ?_, ?_, ?_, ?_⟩
  · intro msg hmsg
    simp [retryIter, hmsg]
  · intro msg hmsg
    simp [retryIter, hmsg]
  · intro label
    simp [retryIter]
  · intro idx hidx
    simp [switch_next_model, hidx]
  · intro idx hidx
    simp [switch_next_model, Nat.mod_eq_of_lt hidx]

/-- C9: the worker never mutates the registry for an id that is gone: a task
whose id is absent at dequeue time is skipped with the registry unchanged
and no event; the write-back changes nothing when the id is absent at
write-back time; and in every case where the id is absent at write-back
time the registry the step returns is exactly the write-back-time
registry. -/
theorem worker_skip_and_discard (db1 db2 : DB) (conn : Bool)
    (numModels modelIdx : Nat) (task : EnrichmentTask) (now : ℚ)
    (hist : List ℚ) (oracle : List ApiOutcome) :
    (dbFind db1 task.tid = none →
      gemini_worker_step db1 db2 conn numModels modelIdx task now hist oracle =
        (db2, [], { modelIdx := modelIdx, attempts := 0,
                    productName := "辨識失敗", now := now, hist := hist })) ∧
    (∀ tid name, dbFind db2 tid = none → workerWriteback db2 tid name = db2) ∧
    (dbFind db2 task.tid = none →
      (gemini_worker_step db1 db2 conn numModels modelIdx task now hist
          oracle).1 = db2) := by
  refine ⟨?_, ?_, ?_⟩
  · intro hskip
    simp [gemini_worker_step, hskip]
  · intro tid name hnone
    simp [workerWriteback, hnone]
  · intro hwb
    cases hdq : dbFind db1 task.tid with
    | none => simp [gemini_worker_step, hdq]
    | some o => simp [gemini_worker_step, hdq, workerWriteback, hwb]

/-- Modelled from the spec: the terminal failure labels.  The spec calls
"recognition failed" (the exhausted-rotation label, "辨識失敗" in the code)
and "recognition error" (the fail-fast label, "API錯誤" in the code) the two
terminal failure labels, and a genuine label one that is neither. -/
def spec_terminal_failure_labels : List String := ["辨識失敗", "API錯誤"]

/-- A done object holding the code's fail-fast terminal label, about to pass
the eviction threshold. -/
def evictFailObj : Obj :=
  { yolo_name := "cup", gemini_name := "API錯誤", status := .done,
    frame_count := 25, missing_count := 30 }

/-- A done object holding a genuine label, about to pass the eviction
threshold. -/
def evictGenuineObj : Obj :=
  { yolo_name := "bottle", gemini_name := "可口可樂", status := .done,
    frame_count := 25, missing_count := 30 }

/-- An idle worker loop state: first model, no attempts, empty history. -/
def stIdle : LoopState :=
  { modelIdx := 0, attempts := 0, productName := "辨識失敗", now := 0, hist := [] }

/-- C6 counterexample: an evicted object whose stored label is the terminal
failure label "API錯誤" (which the code itself records on a non-429 backend
error) does get a removal notification — the eviction filter only screens
out "Thinking" and "失敗" — and conversely a genuine label gets none while
the publisher is disconnected.  So the notification is not emitted iff the
label is genuine. -/
theorem eviction_notification_counterexample :
    missingUpdate true evictFailObj = (none, [Event.removed "API錯誤"]) ∧
    "API錯誤" ∈ spec_terminal_failure_labels ∧
    (retryIter 2 stIdle (.err "500 internal error")).1.productName = "API錯誤" ∧
    missingUpdate false evictGenuineObj = (none, []) := by
  refine ⟨by decide, by decide, by decide, by decide⟩

/-- C6 as amended: during the missing pass, an object whose incremented
missing count exceeds MAX_MISSING_FRAMES is deleted unconditionally, and a
removal notification is emitted iff the publisher is connected and the
stored label is nonempty and contains neither "Thinking" nor "失敗" (so the
terminal failure label "API錯誤" is notified, and nothing is notified while
disconnected); below the threshold the object survives with only the
missing count incremented and no notification. -/
theorem eviction_amended (conn : Bool) (o : Obj) :
    (o.missing_count + 1 > MAX_MISSING_FRAMES →
      (missingUpdate conn o).1 = none ∧
      (missingUpdate conn o).2 =
        (if conn = true ∧ o.gemini_name ≠ "" ∧
            strContains o.gemini_name "Thinking" = false ∧
            strContains o.gemini_name "失敗" = false then
          [Event.removed o.gemini_name]
        else [])) ∧
    (o.missing_count + 1 ≤ MAX_MISSING_FRAMES →
      (missingUpdate conn o).1 =
          some { o with missing_count := o.missing_count + 1 } ∧
      (missingUpdate conn o).2 = []) := by
  constructor
  · intro hgt
    simp [missingUpdate, hgt]
  · intro hle
    have hnot : ¬ (o.missing_count + 1 > MAX_MISSING_FRAMES) := by omega
    simp [missingUpdate, hnot]

/-- The resync scenario registry: three done objects, two with genuine
labels and one with the fail-fast terminal label "API錯誤". -/
def resyncDb : DB :=
  [(1, { yolo_name := "cup", gemini_name := "路易莎咖啡", status := .done,
         frame_count := 25, missing_count := 0 }),
   (2, { yolo_name := "cell phone", gemini_name := "iPhone 15", status := .done,
         frame_count := 25, missing_count := 0 }),
   (3, { yolo_name := "cup", gemini_name := "API錯誤", status := .done,
         frame_count := 25, missing_count := 0 })]

/-- The resync scenario registry with the other terminal label, "辨識失敗",
which does contain "失敗" and is therefore filtered. -/
def resyncDbOk : DB :=
  [(1, { yolo_name := "cup", gemini_name := "路易莎咖啡", status := .done,
         frame_count := 25, missing_count := 0 }),
   (2, { yolo_name := "cell phone", gemini_name := "iPhone 15", status := .done,
         frame_count := 25, missing_count := 0 }),
   (3, { yolo_name := "cup", gemini_name := "辨識失敗", status := .done,
         frame_count := 25, missing_count := 0 })]

/-- C7 counterexample: a registry with 3 done objects — 2 genuine labels and
the terminal failure label "API錯誤" — yields 3 detected events on resync,
not 2: the resync filter only screens out labels containing "失敗", so the
non-genuine "API錯誤" is republished too. -/
theorem resync_counterexample :
    on_resync_request resyncDb =
      [Event.detected "路易莎咖啡", Event.detected "iPhone 15",
       Event.detected "API錯誤"] ∧
    "API錯誤" ∈ spec_terminal_failure_labels ∧
    (on_resync_request resyncDb).length ≠ 2 := by
  refine ⟨by decide, by decide, by decide⟩

/-- Unfolding of one registry entry in on_resync_request. -/
lemma on_resync_request_cons (p : Nat × Obj) (rest : DB) :
    on_resync_request (p :: rest) =
      (if p.2.status = .done ∧ p.2.gemini_name ≠ "" ∧
          strContains p.2.gemini_name "失敗" = false then
        [Event.detected p.2.gemini_name]
      else []) ++ on_resync_request rest := by
  by_cases hc : p.2.status = Status.done ∧ p.2.gemini_name ≠ "" ∧
      strContains p.2.gemini_name "失敗" = false
  · simp [on_resync_request, hc]
  · simp [on_resync_request, hc]

/-- C7 as amended: a resync republishes exactly those registry objects whose
status is done and whose stored label is nonempty and does not contain
"失敗", in registry order; in the 3-done-object scenario that is exactly
2 events when the terminal-failure label is "辨識失敗", but the terminal
label "API錯誤" passes the filter. -/
theorem resync_amended :
    (∀ db : DB, on_resync_request db =
      (db.filter (fun p => decide (p.2.status = .done ∧ p.2.gemini_name ≠ "" ∧
          strContains p.2.gemini_name "失敗" = false))).map
        (fun p => Event.detected p.2.gemini_name)) ∧
    on_resync_request resyncDbOk =
      [Event.detected "路易莎咖啡", Event.detected "iPhone 15"] := by
  constructor
  · intro db
    induction db with
    | nil => rfl
    | cons p rest ih =>
        rw [on_resync_request_cons, ih]
        by_cases hc : p.2.status = Status.done ∧ p.2.gemini_name ≠ "" ∧
            strContains p.2.gemini_name "失敗" = false
        · simp [hc]
        · simp [hc]
  · decide

/-- A worker loop state whose api history holds MAX_RPM recent timestamps:
check_api_quota reports no capacity, now and still 5 seconds later. -/
def stFull : LoopState :=
  { modelIdx := 0, attempts := 0, productName := "辨識失敗", now := 100,
    hist := [95, 96, 97, 98, 99] }

/-- C4 counterexample: with the trailing window full, the quota pre-check
reports no capacity, the worker sleeps once — and then issues the backend
call directly, with no second capacity check: the apiCall event's ghost
flag records that check_api_quota still reports no capacity at the instant
the backend is called. -/
theorem quota_wait_counterexample :
    (check_api_quota stFull.now stFull.hist).2 = false ∧
    (retryIter 1 stFull (.ok "CoffeeCo")).2.1 =
      [Event.quotaSleep, Event.apiCall 0 false] ∧
    Event.apiCall 0 false ∈ (retryLoop 1 1 stFull [.ok "CoffeeCo"]).2 := by
  refine ⟨?_, ?_, ?_⟩
  · norm_num [check_api_quota, stFull, MAX_RPM, List.filter]
  · norm_num [retryIter, stFull, check_api_quota, quotaOkAt, MAX_RPM, List.filter]
  · norm_num [retryLoop, retryIter, stFull, check_api_quota, quotaOkAt, MAX_RPM,
      List.filter]

/-- C4 as amended: whenever the quota pre-check reports no capacity before
an attempt, the worker sleeps the fixed 5-second cooldown and then issues
the recognition call immediately, without re-checking capacity (the call's
ghost quota flag is simply whatever check_api_quota would report 5 seconds
later on the pruned history — possibly still false); the capacity wait does
not increment the backend-attempt counter, which only increments on a
backend exception. -/
theorem quota_wait_no_recheck (numModels : Nat) (st : LoopState)
    (res : ApiOutcome) (hq : (check_api_quota st.now st.hist).2 = false) :
    (∃ tail, (retryIter numModels st res).2.1 =
        Event.quotaSleep :: Event.apiCall st.modelIdx
          (quotaOkAt (st.now + 5) (check_api_quota st.now st.hist).1) :: tail) ∧
    (retryIter numModels st res).1.attempts =
      st.attempts + (match res with | .ok _ => 0 | .err _ => 1) := by
  cases res with
  | ok label =>
      refine ⟨⟨[], ?_⟩, ?_⟩ <;> simp [retryIter, hq]
  | err msg =>
      by_cases hm : strContains msg "429" = true
      · refine ⟨⟨[Event.rateSleep,
            Event.switched (switch_next_model numModels st.modelIdx)], ?_⟩, ?_⟩ <;>
          simp [retryIter, hq, hm]
      · refine ⟨⟨[], ?_⟩, ?_⟩ <;> simp [retryIter, hq, hm]

/-- Witness for the amended C4 at the concrete quota-full state. -/
theorem quota_wait_no_recheck_witness :
    (∃ tail, (retryIter 1 stFull (.err "timeout")).2.1 =
        Event.quotaSleep :: Event.apiCall stFull.modelIdx
          (quotaOkAt (stFull.now + 5) (check_api_quota stFull.now stFull.hist).1) ::
          tail) ∧
    (retryIter 1 stFull (.err "timeout")).1.attempts = stFull.attempts + 1 :=
  quota_wait_no_recheck 1 stFull (.err "timeout")
    (by norm_num [check_api_quota, stFull, MAX_RPM, List.filter])

/-- One retry-loop iteration emits no detected event: only sleeps, the call
and model switches. -/
lemma retryIter_no_detected (numModels : Nat) (st : LoopState)
    (res : ApiOutcome) (name : String) :
    Event.detected name ∉ (retryIter numModels st res).2.1 := by
  cases res with
  | ok label =>
      by_cases hq : (check_api_quota st.now st.hist).2 = true <;>
        simp [retryIter, hq]
  | err msg =>
      by_cases hq : (check_api_quota st.now st.hist).2 = true <;>
        by_cases hm : strContains msg "429" = true <;>
          simp [retryIter, hq, hm]

/-- The whole retry loop emits no detected event. -/
lemma retryLoop_no_detected (numModels fuel : Nat) (st : LoopState)
    (oracle : List ApiOutcome) (name : String) :
    Event.detected name ∉ (retryLoop numModels fuel st oracle).2 := by
  induction fuel generalizing st oracle with
  | zero => simp [retryLoop]
  | succ f ih =>
      cases oracle with
      | nil => simp [retryLoop]
      | cons res rest =>
          by_cases hc : (retryIter numModels st res).2.2 = true
          · simp only [retryLoop, hc, if_true, List.mem_append]
            push_neg
            exact ⟨retryIter_no_detected numModels st res name,
              ih (retryIter numModels st res).1 rest⟩
          · simp only [retryLoop, hc, if_false, Bool.false_eq_true]
            exact retryIter_no_detected numModels st res name

/-- What a detected event in the publish decision's output entails. -/
lemma mem_publishEvents {conn : Bool} {name pname : String}
    (hmem : Event.detected name ∈ publishEvents conn pname) :
    name = pname ∧ conn = true ∧ pname ≠ "" ∧
      strContains pname "失敗" = false ∧ strContains pname "錯誤" = false := by
  by_cases hc : conn = true ∧ pname ≠ "" ∧ strContains pname "失敗" = false ∧
      strContains pname "錯誤" = false
  · have hpe : publishEvents conn pname = [Event.detected pname] := by
      simp [publishEvents, hc]
    rw [hpe] at hmem
    simp only [List.mem_singleton, Event.detected.injEq] at hmem
    exact ⟨hmem, hc⟩
  · simp [publishEvents, hc] at hmem

/-- C10: whether a label is treated as genuine at each publishing boundary
is decided by substring tests on the label text alone, and the three
boundaries use different filters: every detected event the worker step
emits requires a connected publisher and a nonempty result label containing
neither "失敗" nor "錯誤" (so even a successful recognition whose label
contains such a substring is never published); the eviction notification
instead filters "Thinking" and "失敗" only; the resync republish filters
"失敗" only; concretely, the label "API錯誤" is never published by the
worker yet is emitted by both the eviction and the resync paths. -/
theorem label_substring_filters :
    (∀ (db1 db2 : DB) (conn : Bool) (numModels modelIdx : Nat)
        (task : EnrichmentTask) (now : ℚ) (hist : List ℚ)
        (oracle : List ApiOutcome) (name : String),
      Event.detected name ∈
          (gemini_worker_step db1 db2 conn numModels modelIdx task now hist
            oracle).2.1 →
        conn = true ∧ name ≠ "" ∧ strContains name "失敗" = false ∧
          strContains name "錯誤" = false) ∧
    (∀ (conn : Bool) (name : String),
      strContains name "失敗" = true ∨ strContains name "錯誤" = true →
        publishEvents conn name = []) ∧
    (∀ (conn : Bool) (o : Obj), o.missing_count + 1 > MAX_MISSING_FRAMES →
      ((missingUpdate conn o).2 = [Event.removed o.gemini_name] ↔
        (conn = true ∧ o.gemini_name ≠ "" ∧
          strContains o.gemini_name "Thinking" = false ∧
          strContains o.gemini_name "失敗" = false))) ∧
    (∀ (tid : Nat) (o : Obj), on_resync_request [(tid, o)] =
      (if o.status = .done ∧ o.gemini_name ≠ "" ∧
          strContains o.gemini_name "失敗" = false then
        [Event.detected o.gemini_name]
      else [])) ∧
    (publishEvents true "API錯誤" = [] ∧
      missingUpdate true evictFailObj = (none, [Event.removed "API錯誤"]) ∧
      on_resync_request [(3, evictFailObj)] = [Event.detected "API錯誤"]) := by
  refine ⟨?_, ?_, ?_, ?_, by decide, by decide, by decide⟩
  · intro db1 db2 conn numModels modelIdx task now hist oracle name hmem
    by_cases hskip : (dbFind db1 task.tid).isNone = true
    · simp [gemini_worker_step, hskip] at hmem
    · simp only [gemini_worker_step, hskip, if_false, Bool.false_eq_true,
        List.mem_append] at hmem
      rcases hmem with hl | hr
      · exact absurd hl (retryLoop_no_detected _ _ _ _ _)
      · obtain ⟨hn, hc, hne, hf, he⟩ := mem_publishEvents hr
        subst hn
        exact ⟨hc, hne, hf, he⟩
  · intro conn name hsub
    rcases hsub with hf | he
    · simp [publishEvents, hf]
    · simp [publishEvents, he]
  · intro conn o hgt
    by_cases hc : conn = true ∧ o.gemini_name ≠ "" ∧
        strContains o.gemini_name "Thinking" = false ∧
        strContains o.gemini_name "失敗" = false
    · simp [missingUpdate, hgt, hc]
    · simp [missingUpdate, hgt, hc]
  · intro tid o
    rw [on_resync_request_cons]
    simp [on_resync_request]

/-- The status written by handleDetected: unchanged, or pending → sending. -/
lemma handleDetected_status (o : Obj) (tid : Nat) (yn : String)
    (x1 y1 x2 y2 h w : Int) (now : ℚ) (hist : List ℚ) :
    (handleDetected (some o) tid yn x1 y1 x2 y2 h w now hist).obj.status =
        o.status ∨
      (o.status = .pending ∧
        (handleDetected (some o) tid yn x1 y1 x2 y2 h w now hist).obj.status =
          .sending) := by
  by_cases h1 : o.status = Status.pending ∧ o.frame_count + 1 > STABILITY_FRAMES
  · by_cases h2 : (check_api_quota now hist).2 = true
    · by_cases h3 : x2 - x1 > 80 ∧ y2 - y1 > 80
      · right
        exact ⟨h1.1, by simp [handleDetected, h1, h2, h3]⟩
      · left
        simp [handleDetected, h1, h2, h3]
    · left
      simp only [Bool.not_eq_true] at h2
      simp [handleDetected, h1, h2]
  · left
    simp [handleDetected, h1]

/-- The counters written by handleDetected on an existing record. -/
lemma handleDetected_counters (o : Obj) (tid : Nat) (yn : String)
    (x1 y1 x2 y2 h w : Int) (now : ℚ) (hist : List ℚ) :
    (handleDetected (some o) tid yn x1 y1 x2 y2 h w now hist).obj.frame_count =
        o.frame_count + 1 ∧
      (handleDetected (some o) tid yn x1 y1 x2 y2 h w now hist).obj.missing_count
        = 0 := by
  by_cases h1 : o.status = Status.pending ∧ o.frame_count + 1 > STABILITY_FRAMES
  · by_cases h2 : (check_api_quota now hist).2 = true
    · by_cases h3 : x2 - x1 > 80 ∧ y2 - y1 > 80
      · simp [handleDetected, h1, h2, h3]
      · simp [handleDetected, h1, h2, h3]
    · simp only [Bool.not_eq_true] at h2
      simp [handleDetected, h1, h2]
  · simp [handleDetected, h1]

/-- A surviving missingUpdate keeps the status (and everything but the
missing count). -/
lemma missingUpdate_some {conn : Bool} {o o' : Obj}
    (hsome : (missingUpdate conn o).1 = some o') :
    o' = { o with missing_count := o.missing_count + 1 } := by
  by_cases hgt : o.missing_count + 1 > MAX_MISSING_FRAMES
  · simp [missingUpdate, hgt] at hsome
  · simp [missingUpdate, hgt] at hsome
    exact hsome.symm

/-- A live step never decreases the status rank. -/
lemma LiveStep.rank_mono {a b : Obj} (hstep : LiveStep a b) :
    a.status.rank ≤ b.status.rank := by
  rcases hstep with ⟨tid, yn, x1, y1, x2, y2, h, w, now, hist, heq⟩ | ⟨conn, heq⟩
      | ⟨name, heq⟩
  · rcases handleDetected_status a tid yn x1 y1 x2 y2 h w now hist with hs | hs
    · rw [← heq, hs]
    · rw [← heq, hs.2, hs.1]
      decide
  · rw [missingUpdate_some heq]
  · rw [← heq]
    cases hs : a.status <;> simp [workerApply, Status.rank]

/-- A live step enters sending only from pending (or was already there). -/
lemma LiveStep.enter_from_pending {a b : Obj} (hstep : LiveStep a b)
    (hb : b.status = .sending) :
    a.status = .pending ∨ a.status = .sending := by
  rcases hstep with ⟨tid, yn, x1, y1, x2, y2, h, w, now, hist, heq⟩ | ⟨conn, heq⟩
      | ⟨name, heq⟩
  · rcases handleDetected_status a tid yn x1 y1 x2 y2 h w now hist with hs | hs
    · right
      rw [← hs, heq, hb]
    · left
      exact hs.1
  · right
    rw [missingUpdate_some heq] at hb
    exact hb
  · rw [← heq] at hb
    simp [workerApply] at hb

/-- Unfolding countEnter over two leading states. -/
lemma countEnter_cons₂ (a b : Obj) (t : List Obj) :
    countEnter (a :: b :: t) =
      countEnter (b :: t) + (if entersSending a b then 1 else 0) := by
  simp [countEnter, List.countP_cons]

/-- After a state that is past pending, a live trace never enters sending. -/
lemma countEnter_zero_of_not_pending :
    ∀ (t : List Obj) (a : Obj), a.status ≠ .pending →
      (a :: t).Chain' LiveStep → countEnter (a :: t) = 0
  | [], _, _, _ => rfl
  | b :: t, a, ha, hchain => by
      have hab : LiveStep a b := (List.chain'_cons.mp hchain).1
      have ht : (b :: t).Chain' LiveStep := (List.chain'_cons.mp hchain).2
      have hb : b.status ≠ .pending := by
        intro hbp
        have h1 := hab.rank_mono
        rw [hbp] at h1
        cases hs : a.status
        · exact ha hs
        · rw [hs] at h1
          simp [Status.rank] at h1
        · rw [hs] at h1
          simp [Status.rank] at h1
      have hns : entersSending a b = false := by
        by_cases hbs : b.status = Status.sending
        · rcases hab.enter_from_pending hbs with hp | hp
          · exact absurd hp ha
          · simp [entersSending, hp]
        · simp [entersSending, hbs]
      rw [countEnter_cons₂, countEnter_zero_of_not_pending t b hb ht, hns]
      simp

/-- A live trace enters sending at most once. -/
lemma countEnter_le_one :
    ∀ l : List Obj, l.Chain' LiveStep → countEnter l ≤ 1
  | [], _ => by simp [countEnter]
  | [_], _ => by simp [countEnter]
  | a :: b :: t, hchain => by
      have hab : LiveStep a b := (List.chain'_cons.mp hchain).1
      have ht : (b :: t).Chain' LiveStep := (List.chain'_cons.mp hchain).2
      rw [countEnter_cons₂]
      by_cases he : entersSending a b = true
      · have hb : b.status = Status.sending := by
          simp [entersSending] at he
          exact he.2
        have hz : countEnter (b :: t) = 0 :=
          countEnter_zero_of_not_pending t b (by simp [hb]) ht
        simp [hz, he]
      · simp only [Bool.not_eq_true] at he
        simp only [he, if_false, Bool.false_eq_true, Nat.add_zero]
        exact countEnter_le_one (b :: t) ht

/-- C1: along any trace of live steps of one registry entry, the status rank
never decreases (pending → sending → done, never backward), the sending
status is entered at most once, and an enrichment task is enqueued by
handleDetected only at a pending-to-sending transition, so a live object is
enqueued at most once. -/
theorem status_forward_and_single_dispatch (l : List Obj)
    (hchain : l.Chain' LiveStep) :
    l.Chain' (fun a b => a.status.rank ≤ b.status.rank) ∧
    countEnter l ≤ 1 ∧
    (∀ (o : Obj) (tid : Nat) (yn : String) (x1 y1 x2 y2 h w : Int) (now : ℚ)
        (hist : List ℚ),
      (handleDetected (some o) tid yn x1 y1 x2 y2 h w now hist).task.isSome =
          true →
        o.status = .pending ∧
        (handleDetected (some o) tid yn x1 y1 x2 y2 h w now hist).obj.status =
          .sending) := by
  refine ⟨hchain.imp (fun a b hs => hs.rank_mono), countEnter_le_one l hchain, ?_⟩
  intro o tid yn x1 y1 x2 y2 h w now hist htask
  by_cases h1 : o.status = Status.pending ∧ o.frame_count + 1 > STABILITY_FRAMES
  · by_cases h2 : (check_api_quota now hist).2 = true
    · by_cases h3 : x2 - x1 > 80 ∧ y2 - y1 > 80
      · exact ⟨h1.1, by simp [handleDetected, h1, h2, h3]⟩
      · simp [handleDetected, h1, h2, h3] at htask
    · simp only [Bool.not_eq_true] at h2
      simp [handleDetected, h1, h2] at htask
  · simp [handleDetected, h1] at htask

/-- A pending object one frame short of stability, and its state after a
dispatching detection step. -/
def w1Obj : Obj :=
  { yolo_name := "bottle", gemini_name := "", status := .pending,
    frame_count := 20, missing_count := 0 }

/-- The state of w1Obj after a dispatching detection step. -/
def w1Obj' : Obj :=
  { yolo_name := "bottle", gemini_name := "Thinking...", status := .sending,
    frame_count := 21, missing_count := 0 }

/-- Witness for C1 on a concrete two-state live trace through the dispatch
transition. -/
theorem status_forward_witness :
    [w1Obj, w1Obj'].Chain' LiveStep ∧
    [w1Obj, w1Obj'].Chain' (fun a b => a.status.rank ≤ b.status.rank) ∧
    countEnter [w1Obj, w1Obj'] ≤ 1 := by
  have hstep : LiveStep w1Obj w1Obj' :=
    Or.inl ⟨7, "bottle", 0, 0, 100, 100, 500, 500, 0, [], by decide⟩
  have hchain : [w1Obj, w1Obj'].Chain' LiveStep := by
    rw [List.chain'_cons]
    exact ⟨hstep, List.chain'_singleton _⟩
  have hmain := status_forward_and_single_dispatch [w1Obj, w1Obj'] hchain
  exact ⟨hchain, hmain.1, hmain.2.1⟩

/-- Lookup after assignment at the same key. -/
lemma dbFind_dbSet_self (db : DB) (k : Nat) (v : Obj) :
    dbFind (dbSet db k v) k = some v := by
  induction db with
  | nil => simp [dbSet, dbFind]
  | cons p rest ih =>
      by_cases hk : p.1 = k
      · simp [dbSet, hk, dbFind]
      · simp [dbSet, hk, dbFind, ih]

/-- Lookup after assignment at a different key. -/
lemma dbFind_dbSet_ne (db : DB) (k : Nat) (v : Obj) {s : Nat} (h : s ≠ k) :
    dbFind (dbSet db k v) s = dbFind db s := by
  have hks : ¬ (k = s) := fun hc => h hc.symm
  induction db with
  | nil => simp [dbSet, dbFind, hks]
  | cons p rest ih =>
      by_cases hk : p.1 = k
      · subst hk
        simp [dbSet, dbFind, hks]
      · simp [dbSet, hk, dbFind, ih]

/-- A key not among the registry's keys has no entry. -/
lemma dbFind_eq_none_of_not_mem (db : DB) (k : Nat)
    (h : k ∉ db.map Prod.fst) : dbFind db k = none := by
  induction db with
  | nil => rfl
  | cons p rest ih =>
      simp only [List.map_cons, List.mem_cons] at h
      push_neg at h
      have h1 : ¬ (p.1 = k) := fun hc => h.1 hc.symm
      simp [dbFind, h1, ih h.2]

/-- Assignment adds at most the assigned key. -/
lemma mem_keys_dbSet {db : DB} {k : Nat} {v : Obj} {a : Nat}
    (h : a ∈ (dbSet db k v).map Prod.fst) :
    a ∈ db.map Prod.fst ∨ a = k := by
  induction db with
  | nil =>
      simp [dbSet] at h
      exact Or.inr h
  | cons p rest ih =>
      by_cases hk : p.1 = k
      · simp only [dbSet, hk, if_pos, List.map_cons, List.mem_cons] at h
        rcases h with h | h
        · exact Or.inr h
        · exact Or.inl (by simp [h])
      · simp only [dbSet, hk, if_neg, not_false_iff, List.map_cons,
          List.mem_cons] at h
        rcases h with h | h
        · exact Or.inl (by simp [h])
        · rcases ih h with h' | h'
          · exact Or.inl (List.mem_cons_of_mem _ h')
          · exact Or.inr h'

/-- Assignment preserves distinctness of the registry's keys. -/
lemma dbSet_keys_nodup {db : DB} {k : Nat} {v : Obj}
    (h : (db.map Prod.fst).Nodup) : ((dbSet db k v).map Prod.fst).Nodup := by
  induction db with
  | nil => simp [dbSet]
  | cons p rest ih =>
      simp only [List.map_cons, List.nodup_cons] at h
      by_cases hk : p.1 = k
      · simp only [dbSet, hk, if_pos, List.map_cons, List.nodup_cons]
        exact ⟨by rw [← hk]; exact h.1, h.2⟩
      · simp only [dbSet, hk, if_neg, not_false_iff, List.map_cons,
          List.nodup_cons]
        refine ⟨?_, ih h.2⟩
        intro hmem
        rcases mem_keys_dbSet hmem with h' | h'
        · exact h.1 h'
        · exact hk (h' ▸ rfl)

/-- The detection pass leaves the entry of an undetected id untouched. -/
lemma processDetections_find_notin (h w : Int) (now : ℚ) :
    ∀ (dets : List Detection) (db : DB) (hist : List ℚ) (tid : Nat),
      tid ∉ dets.map Detection.tid →
      dbFind (processDetections h w now dets db hist).1 tid = dbFind db tid
  | [], _, _, _, _ => rfl
  | d :: rest, db, hist, tid, hnotin => by
      simp only [List.map_cons, List.mem_cons] at hnotin
      push_neg at hnotin
      simp only [processDetections]
      rw [processDetections_find_notin h w now rest _ _ tid hnotin.2,
        dbFind_dbSet_ne _ _ _ hnotin.1]

/-- The detection pass preserves distinctness of the registry's keys. -/
lemma processDetections_keys_nodup (h w : Int) (now : ℚ) :
    ∀ (dets : List Detection) (db : DB) (hist : List ℚ),
      (db.map Prod.fst).Nodup →
      ((processDetections h w now dets db hist).1.map Prod.fst).Nodup
  | [], _, _, hdb => hdb
  | d :: rest, db, hist, hdb => by
      simp only [processDetections]
      exact processDetections_keys_nodup h w now rest _ _ (dbSet_keys_nodup hdb)

/-- The detection pass increments the frame count of a detected, already
tracked id exactly once and zeroes its missing count. -/
lemma processDetections_find_mem (h w : Int) (now : ℚ) :
    ∀ (dets : List Detection) (db : DB) (hist : List ℚ) (tid : Nat) (o : Obj),
      (dets.map Detection.tid).Nodup → tid ∈ dets.map Detection.tid →
      dbFind db tid = some o →
      ∃ o', dbFind (processDetections h w now dets db hist).1 tid = some o' ∧
        o'.frame_count = o.frame_count + 1 ∧ o'.missing_count = 0
  | [], _, _, _, _, _, hmem, _ => absurd hmem (by simp)
  | d :: rest, db, hist, tid, o, hnodup, hmem, hfind => by
      simp only [List.map_cons, List.nodup_cons] at hnodup
      simp only [List.map_cons, List.mem_cons] at hmem
      by_cases htid : tid = d.tid
      · refine ⟨(handleDetected (dbFind db d.tid) d.tid d.yoloName d.x1 d.y1
            d.x2 d.y2 h w now hist).obj, ?_, ?_⟩
        · simp only [processDetections]
          rw [processDetections_find_notin h w now rest _ _ tid
              (by rw [htid]; exact hnodup.1),
            htid, dbFind_dbSet_self]
        · rw [htid] at hfind
          rw [hfind]
          exact handleDetected_counters o d.tid d.yoloName d.x1 d.y1 d.x2 d.y2
            h w now hist
      · have hmem' : tid ∈ rest.map Detection.tid := by
          rcases hmem with hc | hc
          · exact absurd hc htid
          · exact hc
        simp only [processDetections]
        exact processDetections_find_mem h w now rest _ _ tid o hnodup.2 hmem'
          (by rw [dbFind_dbSet_ne _ _ _ htid]; exact hfind)

/-- The missing pass introduces no entry for an absent key. -/
lemma missingPass_find_none (conn : Bool) (ids : List Nat) :
    ∀ (db : DB) (tid : Nat), dbFind db tid = none →
      dbFind (missingPass conn ids db).1 tid = none
  | [], _, _ => rfl
  | p :: rest, tid, hfind => by
      have hp : ¬ (p.1 = tid) := by
        intro hc
        simp [dbFind, hc] at hfind
      have hrest : dbFind rest tid = none := by
        simpa [dbFind, hp] using hfind
      by_cases hdet : p.1 ∈ ids
      · simp only [missingPass, hdet, if_pos]
        simp [dbFind, hp, missingPass_find_none conn ids rest tid hrest]
      · simp only [missingPass, hdet, if_neg, not_false_iff]
        cases hm : (missingUpdate conn p.2).1 with
        | some o' =>
            simp [dbFind, hp, missingPass_find_none conn ids rest tid hrest]
        | none =>
            simp [missingPass_find_none conn ids rest tid hrest]

/-- The missing pass leaves a detected id's entry untouched. -/
lemma missingPass_find_detected (conn : Bool) (ids : List Nat) :
    ∀ (db : DB) (tid : Nat) (o : Obj), tid ∈ ids → dbFind db tid = some o →
      dbFind (missingPass conn ids db).1 tid = some o
  | [], _, _, _, hfind => by simp [dbFind] at hfind
  | p :: rest, tid, o, hids, hfind => by
      by_cases hp : p.1 = tid
      · have hpo : p.2 = o := by simpa [dbFind, hp] using hfind
        have hdet : p.1 ∈ ids := hp ▸ hids
        simp only [missingPass, hdet, if_pos]
        simp [dbFind, hp, hpo]
      · have hrest : dbFind rest tid = some o := by
          simpa [dbFind, hp] using hfind
        by_cases hdet : p.1 ∈ ids
        · simp only [missingPass, hdet, if_pos]
          simp [dbFind, hp,
            missingPass_find_detected conn ids rest tid o hids hrest]
        · simp only [missingPass, hdet, if_neg, not_false_iff]
          cases hm : (missingUpdate conn p.2).1 with
          | some o' =>
              simp [dbFind, hp,
                missingPass_find_detected conn ids rest tid o hids hrest]
          | none =>
              simp [missingPass_find_detected conn ids rest tid o hids hrest]

/-- The missing pass on an undetected id: its missing count is incremented
exactly once (frame count untouched), and past MAX_MISSING_FRAMES the entry
is deleted. -/
lemma missingPass_find_absent (conn : Bool) (ids : List Nat) :
    ∀ (db : DB) (tid : Nat) (o : Obj), tid ∉ ids →
      (db.map Prod.fst).Nodup → dbFind db tid = some o →
      (o.missing_count + 1 > MAX_MISSING_FRAMES ∧
        dbFind (missingPass conn ids db).1 tid = none) ∨
      (o.missing_count + 1 ≤ MAX_MISSING_FRAMES ∧
        dbFind (missingPass conn ids db).1 tid =
          some { o with missing_count := o.missing_count + 1 })
  | [], _, _, _, _, hfind => by simp [dbFind] at hfind
  | p :: rest, tid, o, hids, hnodup, hfind => by
      simp only [List.map_cons, List.nodup_cons] at hnodup
      by_cases hp : p.1 = tid
      · have hpo : p.2 = o := by simpa [dbFind, hp] using hfind
        have hdet : p.1 ∉ ids := by rw [hp]; exact hids
        simp only [missingPass, hdet, if_neg, not_false_iff]
        by_cases hgt : o.missing_count + 1 > MAX_MISSING_FRAMES
        · left
          refine ⟨hgt, ?_⟩
          have hm : (missingUpdate conn p.2).1 = none := by
            simp [missingUpdate, hpo, hgt]
          rw [hm]
          apply missingPass_find_none
          apply dbFind_eq_none_of_not_mem
          rw [← hp]
          exact hnodup.1
        · right
          refine ⟨by omega, ?_⟩
          have hm : (missingUpdate conn p.2).1 =
              some { o with missing_count := o.missing_count + 1 } := by
            simp [missingUpdate, hpo, hgt]
          rw [hm]
          simp [dbFind, hp]
      · have hrest : dbFind rest tid = some o := by
          simpa [dbFind, hp] using hfind
        have hr := missingPass_find_absent conn ids rest tid o hids hnodup.2
          hrest
        by_cases hdet : p.1 ∈ ids
        · simp only [missingPass, hdet, if_pos]
          rcases hr with ⟨hgt, hfound⟩ | ⟨hle, hfound⟩
          · exact Or.inl ⟨hgt, by simp [dbFind, hp, hfound]⟩
          · exact Or.inr ⟨hle, by simp [dbFind, hp, hfound]⟩
        · simp only [missingPass, hdet, if_neg, not_false_iff]
          cases hm : (missingUpdate conn p.2).1 with
          | some o' =>
              rcases hr with ⟨hgt, hfound⟩ | ⟨hle, hfound⟩
              · exact Or.inl ⟨hgt, by simp [dbFind, hp, hfound]⟩
              · exact Or.inr ⟨hle, by simp [dbFind, hp, hfound]⟩
          | none =>
              rcases hr with ⟨hgt, hfound⟩ | ⟨hle, hfound⟩
              · exact Or.inl ⟨hgt, by simp [hfound]⟩
              · exact Or.inr ⟨hle, by simp [hfound]⟩

/-- C8: in one process_frame pass over a registry with distinct keys and a
detection list with distinct ids, a tracked object detected in the frame
gets its frame count incremented exactly once and its missing count reset
to 0, while a tracked object absent from the frame gets its missing count
incremented exactly once with its frame count untouched (or, past the
eviction threshold, is deleted); the two counters are never both
incremented in the same frame. -/
theorem frame_counters_exclusive (db : DB) (dets : List Detection)
    (h w : Int) (now : ℚ) (hist : List ℚ) (conn : Bool) (tid : Nat) (o : Obj)
    (hkeys : (db.map Prod.fst).Nodup)
    (hdets : (dets.map Detection.tid).Nodup)
    (hfind : dbFind db tid = some o) :
    (tid ∈ dets.map Detection.tid →
      ∃ o', dbFind (process_frame_model db dets h w now hist conn).1 tid =
          some o' ∧
        o'.frame_count = o.frame_count + 1 ∧ o'.missing_count = 0) ∧
    (tid ∉ dets.map Detection.tid →
      (o.missing_count + 1 > MAX_MISSING_FRAMES ∧
        dbFind (process_frame_model db dets h w now hist conn).1 tid = none) ∨
      (o.missing_count + 1 ≤ MAX_MISSING_FRAMES ∧
        dbFind (process_frame_model db dets h w now hist conn).1 tid =
          some { o with missing_count := o.missing_count + 1 })) := by
  constructor
  · intro hmem
    obtain ⟨o', hfound, hfc, hmc⟩ :=
      processDetections_find_mem h w now dets db hist tid o hdets hmem hfind
    exact ⟨o', missingPass_find_detected conn (dets.map Detection.tid) _ tid o'
      hmem hfound, hfc, hmc⟩
  · intro hnotin
    have hpass1 : dbFind (processDetections h w now dets db hist).1 tid =
        some o := by
      rw [processDetections_find_notin h w now dets db hist tid hnotin]
      exact hfind
    exact missingPass_find_absent conn (dets.map Detection.tid) _ tid o hnotin
      (processDetections_keys_nodup h w now dets db hist hkeys) hpass1

/-- A tracked object three frames in, used by the C8 witness. -/
def w8Obj : Obj :=
  { yolo_name := "bottle", gemini_name := "", status := .pending,
    frame_count := 3, missing_count := 0 }

/-- Witness registry for C8. -/
def w8db : DB := [(1, w8Obj)]

/-- Witness detection list for C8: id 1 detected. -/
def w8dets : List Detection :=
  [{ tid := 1, x1 := 0, y1 := 0, x2 := 10, y2 := 10, yoloName := "bottle" }]

/-- Witness for C8 at a concrete one-object registry and one-detection
frame. -/
theorem frame_counters_witness :
    ∃ o', dbFind (process_frame_model w8db w8dets 500 500 0 [] true).1 1 =
        some o' ∧
      o'.frame_count = w8Obj.frame_count + 1 ∧ o'.missing_count = 0 :=
  (frame_counters_exclusive w8db w8dets 500 500 0 [] true 1 w8Obj
    (by decide) (by decide) (by decide)).1 (by decide)

end PC
